import Mathlib

/-! IOC runtime error reporting (`lib/ioc/ioc_report.c`).

A shallow embedding of the reporting entry points of the Integer Overflow
Checker runtime.

* C strings (`const char *`) are `String`s.
* `uint8_t`, `uint32_t` and `uint64_t` arguments are natural numbers; the casts
  the source performs (`(signed long long)V`, an `unsigned` passed to `%d`)
  are explicit wrap-arounds.
* `sprintf(output, ...)` is the string it stores in `output`.
* `fprintf(stderr, ...)` is explicit state passing: every `void` entry point
  takes the text already on the error stream and returns the stream after the
  call.
* The `printf` conversions used by the file (`%s`, `%d`, `%u`, `%lld`, `%llu`)
  are modelled after the C standard: decimal, no padding, a leading `-` for
  negative values.
-/

namespace IOC

/-! ## The `printf` conversions used by the source -/

/-- The character of one decimal digit. -/
def digitChar (d : Nat) : Char := Char.ofNat (48 + d)

/-- Decimal digits of `n`, most significant first; `fuel` bounds the number of
digits produced. -/
def decimalAux : Nat → Nat → List Char
  | 0, _ => []
  | fuel + 1, n =>
    if n < 10 then [digitChar n]
    else decimalAux fuel (n / 10) ++ [digitChar (n % 10)]

/-- The decimal numeral of a natural number (`0` is `"0"`, no leading zeros). -/
def decimal (n : Nat) : String := ⟨decimalAux (n + 1) n⟩

/-- The decimal numeral of an integer: a `-` in front of negative values. -/
def decimalInt (i : Int) : String :=
  if i < 0 then "-" ++ decimal i.natAbs else decimal i.toNat

/-- Conversion to `int`: the value modulo `2^32`, read as two's complement. -/
def toInt32 (n : Nat) : Int :=
  if n % 2 ^ 32 < 2 ^ 31 then (n % 2 ^ 32 : Nat) else (n % 2 ^ 32 : Nat) - 2 ^ 32

/-- Conversion to `signed long long`: the value modulo `2^64`, read as two's
complement. -/
def toInt64 (n : Nat) : Int :=
  if n % 2 ^ 64 < 2 ^ 63 then (n % 2 ^ 64 : Nat) else (n % 2 ^ 64 : Nat) - 2 ^ 64

/-- The conversion `%d` applied to a 32-bit argument. -/
def fmt_d (n : Nat) : String := decimalInt (toInt32 n)

/-- The conversion `%u` applied to an `unsigned` argument. -/
def fmt_u (n : Nat) : String := decimal (n % 2 ^ 32)

/-- The conversion `%lld` applied to `(signed long long)n`. -/
def fmt_lld (n : Nat) : String := decimalInt (toInt64 n)

/-- The conversion `%llu` applied to `(unsigned long long)n`. -/
def fmt_llu (n : Nat) : String := decimal (n % 2 ^ 64)

/-- A call `fprintf(stderr, ...)`: the rendered text is appended to the error
stream. -/
def fprintf_stderr (stderr text : String) : String := stderr ++ text

/-! ## Handling of encoded types -/

/-- Signedness flag of an encoded type, as the `char` the source returns:
`return (T & 8) != 0;` -/
def __ioc_is_signed (T : Nat) : Nat := if T &&& 8 ≠ 0 then 1 else 0

/-- Print helper for operand values; the result is the content of `output`.
```
unsigned width = (1 << (T & 7));
if (__ioc_is_signed(T)) sprintf(output, "(sint%u) %lld", width, (signed long long)V);
else                    sprintf(output, "(uint%u) %llu", width, (unsigned long long)V);
``` -/
def __ioc_print_val (V T : Nat) : String :=
  let width := 1 <<< (T &&& 7)
  if __ioc_is_signed T ≠ 0 then
    "(sint" ++ fmt_u width ++ ") " ++ fmt_lld V
  else
    "(uint" ++ fmt_u width ++ ") " ++ fmt_llu V

/-! ## The shared helper -/

/-- Shared helper for reporting failed checks.
```
__ioc_print_val(lstr, lval, LT);
__ioc_print_val(rstr, rval, RT);
fprintf(stderr, "%s:%d:%d: runtime error: %s [ expr = '%s', lval = %s, rval = %s ]\n",
        filename, line, column, msg, exprstr, lstr, rstr);
``` -/
def __ioc_report_error (line column : Nat) (filename exprstr : String)
    (lval LT rval RT : Nat) (msg : String) (stderr : String) : String :=
  let lstr := __ioc_print_val lval LT
  let rstr := __ioc_print_val rval RT
  fprintf_stderr stderr
    (filename ++ ":" ++ fmt_d line ++ ":" ++ fmt_d column ++ ": runtime error: " ++ msg ++ " "
      ++ "[ expr = '" ++ exprstr ++ "', lval = " ++ lstr ++ ", rval = " ++ rstr ++ " ]\n")

/-! ## The entry points -/

/-- Entry point for a failed addition check. -/
def __ioc_report_add_overflow (line column : Nat) (filename exprstr : String)
    (lval rval T : Nat) (stderr : String) : String :=
  __ioc_report_error line column filename exprstr lval T rval T
    (if __ioc_is_signed T ≠ 0 then "signed addition overflow"
     else "unsigned addition overflow") stderr

/-- Entry point for a failed subtraction check. -/
def __ioc_report_sub_overflow (line column : Nat) (filename exprstr : String)
    (lval rval T : Nat) (stderr : String) : String :=
  __ioc_report_error line column filename exprstr lval T rval T
    (if __ioc_is_signed T ≠ 0 then "signed subtraction overflow"
     else "unsigned subtraction overflow") stderr

/-- Entry point for a failed multiplication check. -/
def __ioc_report_mul_overflow (line column : Nat) (filename exprstr : String)
    (lval rval T : Nat) (stderr : String) : String :=
  __ioc_report_error line column filename exprstr lval T rval T
    (if __ioc_is_signed T ≠ 0 then "signed multiplication overflow"
     else "unsigned multiplication overflow") stderr

/-- Entry point for a failed division check. -/
def __ioc_report_div_error (line column : Nat) (filename exprstr : String)
    (lval rval T : Nat) (stderr : String) : String :=
  if rval = 0 then
    __ioc_report_error line column filename exprstr lval T rval T
      "division by zero is undefined" stderr
  else
    __ioc_report_error line column filename exprstr lval T rval T
      "division overflow (INT_MIN / -1)" stderr

/-- Entry point for a failed remainder check. -/
def __ioc_report_rem_error (line column : Nat) (filename exprstr : String)
    (lval rval T : Nat) (stderr : String) : String :=
  if rval = 0 then
    __ioc_report_error line column filename exprstr lval T rval T
      "remainder by zero is undefined" stderr
  else
    __ioc_report_error line column filename exprstr lval T rval T
      "remainder overflow (INT_MIN % -1)" stderr

/-- Entry point for a left shift by an invalid amount: one check covers both
cases, the message depends on the sign of the operand. -/
def __ioc_report_shl_bitwidth (line column : Nat) (filename exprstr : String)
    (lval rval T : Nat) (stderr : String) : String :=
  if __ioc_is_signed T ≠ 0 ∧ toInt64 rval < 0 then
    __ioc_report_error line column filename exprstr lval T rval T
      "left shift by negative amount" stderr
  else
    __ioc_report_error line column filename exprstr lval T rval T
      "left shift by amount >= bitwidth" stderr

/-- Entry point for a right shift by an invalid amount. -/
def __ioc_report_shr_bitwidth (line column : Nat) (filename exprstr : String)
    (lval rval T : Nat) (stderr : String) : String :=
  if __ioc_is_signed T ≠ 0 ∧ toInt64 rval < 0 then
    __ioc_report_error line column filename exprstr lval T rval T
      "right shift by negative amount" stderr
  else
    __ioc_report_error line column filename exprstr lval T rval T
      "right shift by amount >= bitwidth" stderr

/-- Entry point for a left shift into or beyond the sign bit. -/
def __ioc_report_shl_strict (line column : Nat) (filename exprstr : String)
    (lval rval T : Nat) (stderr : String) : String :=
  __ioc_report_error line column filename exprstr lval T rval T
    "left shift into or beyond sign bit" stderr

/-- Entry point for a conversion that loses the value.
```
char srcstr[100];
if (S) sprintf(srcstr, "%lld", (signed long long)src);
else   sprintf(srcstr, "%llu", (unsigned long long)src);
fprintf(stderr, "%s:%d:%d: runtime error: value lost in conversion of '%s'"
                " from '%s' (%s) to '%s' (%s)\n",
        filename, line, column, srcstr, srcty, canonsrcty, dstty, canondstty);
``` -/
def __ioc_report_conversion (line column : Nat) (filename : String)
    (srcty canonsrcty dstty canondstty : String) (src S : Nat) (stderr : String) : String :=
  let srcstr := if S ≠ 0 then fmt_lld src else fmt_llu src
  fprintf_stderr stderr
    (filename ++ ":" ++ fmt_d line ++ ":" ++ fmt_d column
      ++ ": runtime error: value lost in conversion of '" ++ srcstr ++ "'"
      ++ " from '" ++ srcty ++ "' (" ++ canonsrcty ++ ") to '" ++ dstty ++ "' ("
      ++ canondstty ++ ")\n")

/-! ## Reading a diagnostic back

The definitions below are not part of the runtime: they state what it means to
drop a known prefix from a text and to read a signed decimal numeral. -/

/-- The text that follows the prefix `p`, when the text starts with `p`. -/
def stripPrefix : List Char → List Char → Option (List Char)
  | [], s => some s
  | _ :: _, [] => none
  | p :: ps, c :: cs => if p = c then stripPrefix ps cs else none

/-- The value of a decimal digit character. -/
def digitValue (c : Char) : Option Nat :=
  if 48 ≤ c.toNat ∧ c.toNat ≤ 57 then some (c.toNat - 48) else none

/-- Reads a run of decimal digits, continuing from the value `acc`. -/
def parseDigits : List Char → Nat → Option Nat
  | [], acc => some acc
  | c :: cs, acc =>
    match digitValue c with
    | some d => parseDigits cs (10 * acc + d)
    | none => none

/-- Reads an unsigned decimal numeral: one digit at least, digits only. -/
def parseDecimal (cs : List Char) : Option Nat :=
  if cs = [] then none else parseDigits cs 0

/-- Reads a signed decimal numeral: an optional `-`, then an unsigned one. -/
def parseSignedDecimal : List Char → Option Int
  | [] => none
  | c :: cs =>
    if c = '-' then (parseDecimal cs).map (fun n => -(n : Int))
    else (parseDecimal (c :: cs)).map (fun n => (n : Int))

/-- The part of a typed value rendering before its first blank: the label. -/
def label (s : String) : String := ⟨s.data.takeWhile (fun c => c ≠ ' ')⟩

/-- The eight entry points that take two operands and one type tag. -/
def tagEntryPoints :
    List (Nat → Nat → String → String → Nat → Nat → Nat → String → String) :=
  [__ioc_report_add_overflow, __ioc_report_sub_overflow, __ioc_report_mul_overflow,
   __ioc_report_div_error, __ioc_report_rem_error, __ioc_report_shl_bitwidth,
   __ioc_report_shr_bitwidth, __ioc_report_shl_strict]

/-! ## Facts about the conversions -/

theorem fmt_d_of_lt {n : Nat} (h : n < 2 ^ 31) : fmt_d n = decimal n := by
  have h32 : n % 2 ^ 32 = n := Nat.mod_eq_of_lt (by omega)
  simp only [fmt_d, toInt32, h32, if_pos h, decimalInt]
  rw [if_neg (by omega)]
  simp

theorem fmt_llu_of_lt {n : Nat} (h : n < 2 ^ 64) : fmt_llu n = decimal n := by
  rw [fmt_llu, Nat.mod_eq_of_lt h]

theorem toInt64_of_lt {n : Nat} (h : n < 2 ^ 64) :
    toInt64 n = if n < 2 ^ 63 then (n : Int) else (n : Int) - 2 ^ 64 := by
  rw [toInt64, Nat.mod_eq_of_lt h]

theorem fmt_lld_of_lt {n : Nat} (h : n < 2 ^ 64) :
    fmt_lld n = if n < 2 ^ 63 then decimal n else "-" ++ decimal (2 ^ 64 - n) := by
  rw [fmt_lld, toInt64_of_lt h, decimalInt]
  by_cases h63 : n < 2 ^ 63
  · rw [if_pos h63, if_pos h63, if_neg (by omega)]
    simp
  · rw [if_neg h63, if_neg h63, if_pos (by omega)]
    congr 2
    omega

theorem width_lt (T : Nat) : 1 <<< (T &&& 7) < 2 ^ 32 := by
  have h : T &&& 7 ≤ 7 := Nat.and_le_right
  rw [Nat.one_shiftLeft]
  calc 2 ^ (T &&& 7) ≤ 2 ^ 7 := Nat.pow_le_pow_right (by decide) h
    _ < 2 ^ 32 := by decide

theorem fmt_u_width (T : Nat) : fmt_u (1 <<< (T &&& 7)) = decimal (1 <<< (T &&& 7)) := by
  rw [fmt_u, Nat.mod_eq_of_lt (width_lt T)]

theorem land_eight (T : Nat) : T &&& 8 = if T.testBit 3 = true then 8 else 0 := by
  have h := Nat.and_two_pow T 3
  norm_num at h
  rw [h]
  cases T.testBit 3 <;> simp

theorem is_signed_ne_zero_iff (T : Nat) : __ioc_is_signed T ≠ 0 ↔ T.testBit 3 = true := by
  rw [__ioc_is_signed, land_eight]
  cases T.testBit 3 <;> simp

theorem print_val_signed {V T : Nat} (hV : V < 2 ^ 64) (hT : T.testBit 3 = true) :
    __ioc_print_val V T = "(sint" ++ decimal (1 <<< (T &&& 7)) ++ ") "
      ++ (if V < 2 ^ 63 then decimal V else "-" ++ decimal (2 ^ 64 - V)) := by
  simp only [__ioc_print_val]
  rw [if_pos ((is_signed_ne_zero_iff T).2 hT), fmt_u_width, fmt_lld_of_lt hV]

theorem print_val_unsigned {V T : Nat} (hV : V < 2 ^ 64) (hT : T.testBit 3 = false) :
    __ioc_print_val V T = "(uint" ++ decimal (1 <<< (T &&& 7)) ++ ") " ++ decimal V := by
  simp only [__ioc_print_val]
  rw [if_neg (by rw [is_signed_ne_zero_iff, hT]; simp), fmt_u_width, fmt_llu_of_lt hV]

theorem digitValue_digitChar {d : Nat} (h : d < 10) : digitValue (digitChar d) = some d := by
  interval_cases d <;> decide

theorem digitChar_ne_minus {d : Nat} (h : d < 10) : digitChar d ≠ '-' := by
  interval_cases d <;> decide

theorem digitChar_ne_blank {d : Nat} (h : d < 10) : digitChar d ≠ ' ' := by
  interval_cases d <;> decide

theorem decimalAux_digits (fuel : Nat) :
    ∀ n, ∀ c ∈ decimalAux fuel n, ∃ d, d < 10 ∧ c = digitChar d := by
  induction fuel with
  | zero => intro n c hc; simp [decimalAux] at hc
  | succ fuel ih =>
    intro n c hc
    rw [decimalAux] at hc
    split at hc
    · rename_i h
      exact ⟨n, h, by simpa using hc⟩
    · rcases List.mem_append.1 hc with h | h
      · exact ih _ c h
      · exact ⟨n % 10, Nat.mod_lt _ (by decide), by simpa using h⟩

theorem decimalAux_ne_nil (fuel n : Nat) : decimalAux (fuel + 1) n ≠ [] := by
  rw [decimalAux]
  split <;> simp

theorem parseDigits_append (a b : List Char) :
    ∀ acc, parseDigits (a ++ b) acc = (parseDigits a acc).bind (parseDigits b) := by
  induction a with
  | nil => intro acc; simp [parseDigits]
  | cons c cs ih =>
    intro acc
    simp only [List.cons_append, parseDigits]
    cases digitValue c with
    | none => simp
    | some d => simpa using ih _

theorem parseDigits_decimalAux (fuel : Nat) :
    ∀ n, n < fuel → parseDigits (decimalAux fuel n) 0 = some n := by
  induction fuel with
  | zero => intro n h; omega
  | succ fuel ih =>
    intro n hn
    rw [decimalAux]
    split
    · rename_i h
      simp [parseDigits, digitValue_digitChar h]
    · rename_i h
      rw [parseDigits_append, ih (n / 10) (by omega)]
      simp only [Option.some_bind, parseDigits, digitValue_digitChar (Nat.mod_lt n (by decide : 0 < 10))]
      congr 1
      omega

theorem parseDecimal_decimal (n : Nat) : parseDecimal (decimal n).data = some n := by
  rw [parseDecimal, decimal, if_neg (decimalAux_ne_nil n n)]
  exact parseDigits_decimalAux (n + 1) n (by omega)

theorem parseSignedDecimal_decimal (n : Nat) :
    parseSignedDecimal (decimal n).data = some (n : Int) := by
  have hp := parseDecimal_decimal n
  have hd : ∀ c ∈ (decimal n).data, c ≠ '-' := by
    intro c hc
    obtain ⟨d, hd, rfl⟩ := decimalAux_digits _ _ c hc
    exact digitChar_ne_minus hd
  cases hdata : (decimal n).data with
  | nil => exact absurd hdata (decimalAux_ne_nil n n)
  | cons c cs =>
    rw [hdata] at hp hd
    rw [parseSignedDecimal, if_neg (hd c (by simp)), hp]
    rfl

theorem parseSignedDecimal_minus (n : Nat) :
    parseSignedDecimal ("-" ++ decimal n).data = some (-(n : Int)) := by
  rw [String.data_append]
  show parseSignedDecimal ('-' :: (decimal n).data) = _
  rw [parseSignedDecimal, if_pos rfl, parseDecimal_decimal]
  rfl

theorem stripPrefix_append (p s : List Char) : stripPrefix p (p ++ s) = some s := by
  induction p with
  | nil => simp [stripPrefix]
  | cons c cs ih => simp [stripPrefix, ih]

theorem label_append (a b : String) (ha : ∀ c ∈ a.data, c ≠ ' ') :
    label (a ++ " " ++ b) = a := by
  have h : (a ++ " " ++ b).data = a.data ++ ' ' :: b.data := by
    simp [String.data_append]
  rw [label, h]
  have : List.takeWhile (fun c => decide (c ≠ ' ')) (a.data ++ ' ' :: b.data) = a.data := by
    rw [List.takeWhile_append_of_pos]
    · simp [List.takeWhile]
    · intro c hc; simpa using ha c hc
  rw [this]

theorem print_val_label_eq (V T : Nat) :
    label (__ioc_print_val V T) =
      (if T.testBit 3 = true then "(sint" else "(uint") ++ decimal (1 <<< (T &&& 7)) ++ ")" := by
  have e : ") " = ")" ++ " " := by decide
  have hdec : ∀ c ∈ (decimal (1 <<< (T &&& 7))).data, c ≠ ' ' := by
    intro c hc
    obtain ⟨d, hd, rfl⟩ := decimalAux_digits _ _ c hc
    exact digitChar_ne_blank hd
  simp only [__ioc_print_val, fmt_u_width]
  by_cases hT : T.testBit 3 = true
  · rw [if_pos ((is_signed_ne_zero_iff T).2 hT), if_pos hT, e, ← String.append_assoc]
    apply label_append
    intro c hc
    simp only [String.data_append, List.mem_append] at hc
    rcases hc with (hc | hc) | hc
    · revert c; decide
    · exact hdec c hc
    · revert c; decide
  · rw [if_neg (by rw [is_signed_ne_zero_iff]; exact hT), if_neg hT, e, ← String.append_assoc]
    apply label_append
    intro c hc
    simp only [String.data_append, List.mem_append] at hc
    rcases hc with (hc | hc) | hc
    · revert c; decide
    · exact hdec c hc
    · revert c; decide

theorem land_seven (T : Nat) : T &&& 7 = (T &&& 15) &&& 7 := by
  rw [Nat.land_assoc]
  rfl

theorem land_eight_of_fifteen (T : Nat) : T &&& 8 = (T &&& 15) &&& 8 := by
  rw [Nat.land_assoc]
  rfl

theorem is_signed_congr {T1 T2 : Nat} (h : T1 &&& 0x0F = T2 &&& 0x0F) :
    __ioc_is_signed T1 = __ioc_is_signed T2 := by
  rw [__ioc_is_signed, __ioc_is_signed, land_eight_of_fifteen T1, land_eight_of_fifteen T2, h]

theorem print_val_congr {T1 T2 : Nat} (h : T1 &&& 0x0F = T2 &&& 0x0F) (V : Nat) :
    __ioc_print_val V T1 = __ioc_print_val V T2 := by
  simp only [__ioc_print_val, is_signed_congr h]
  rw [land_seven T1, land_seven T2, h]

theorem report_error_congr {T1 T2 : Nat} (h : T1 &&& 0x0F = T2 &&& 0x0F)
    (line column : Nat) (filename exprstr : String) (lval rval : Nat) (msg stderr : String) :
    __ioc_report_error line column filename exprstr lval T1 rval T1 msg stderr =
      __ioc_report_error line column filename exprstr lval T2 rval T2 msg stderr := by
  simp only [__ioc_report_error, print_val_congr h]

theorem decimal_count_zero (c : Char) (hc : ∀ d, d < 10 → digitChar d ≠ c) (n : Nat) :
    (decimal n).data.count c = 0 := by
  rw [List.count_eq_zero]
  intro h
  obtain ⟨d, hd, e⟩ := decimalAux_digits _ _ c h
  exact hc d hd e.symm

theorem decimalInt_count_zero (c : Char) (hc : ∀ d, d < 10 → digitChar d ≠ c) (hm : c ≠ '-')
    (i : Int) : (decimalInt i).data.count c = 0 := by
  rw [decimalInt]
  split
  · rw [String.data_append, List.count_append, decimal_count_zero c hc]
    show List.count c ['-'] = 0
    rw [List.count_eq_zero]
    simpa using hm
  · exact decimal_count_zero c hc _

theorem print_val_count_zero (c : Char) (hc : ∀ d, d < 10 → digitChar d ≠ c)
    (hfix : c ∉ "(sint) u-".data) (V T : Nat) : (__ioc_print_val V T).data.count c = 0 := by
  have hm : c ≠ '-' := by
    intro h
    apply hfix
    rw [h]
    decide
  have h1 : List.count c "(sint".data = 0 := by
    rw [List.count_eq_zero]
    intro h
    apply hfix
    revert h
    show c ∈ ['(', 's', 'i', 'n', 't'] → c ∈ ['(', 's', 'i', 'n', 't', ')', ' ', 'u', '-']
    simp only [List.mem_cons, List.mem_singleton, List.not_mem_nil, or_false]
    tauto
  have h2 : List.count c "(uint".data = 0 := by
    rw [List.count_eq_zero]
    intro h
    apply hfix
    revert h
    show c ∈ ['(', 'u', 'i', 'n', 't'] → c ∈ ['(', 's', 'i', 'n', 't', ')', ' ', 'u', '-']
    simp only [List.mem_cons, List.mem_singleton, List.not_mem_nil, or_false]
    tauto
  have h3 : List.count c ") ".data = 0 := by
    rw [List.count_eq_zero]
    intro h
    apply hfix
    revert h
    show c ∈ [')', ' '] → c ∈ ['(', 's', 'i', 'n', 't', ')', ' ', 'u', '-']
    simp only [List.mem_cons, List.mem_singleton, List.not_mem_nil, or_false]
    tauto
  simp only [__ioc_print_val]
  split
  · simp only [String.data_append, List.count_append, h1, h3, fmt_u, fmt_lld,
      decimal_count_zero c hc, decimalInt_count_zero c hc hm]
  · simp only [String.data_append, List.count_append, h2, h3, fmt_u, fmt_llu,
      decimal_count_zero c hc]

theorem report_error_appends (line column : Nat) (filename exprstr : String)
    (lval LT rval RT : Nat) (msg stderr : String) :
    __ioc_report_error line column filename exprstr lval LT rval RT msg stderr =
      stderr ++ __ioc_report_error line column filename exprstr lval LT rval RT msg "" := by
  simp only [__ioc_report_error, fprintf_stderr]
  congr 1

theorem report_error_one_line (line column : Nat) (filename exprstr : String)
    (lval LT rval RT : Nat) (msg : String) (hmsg : msg.data.count '\n' = 0) :
    (∀ stderr, __ioc_report_error line column filename exprstr lval LT rval RT msg stderr =
      stderr ++ __ioc_report_error line column filename exprstr lval LT rval RT msg "") ∧
    (__ioc_report_error line column filename exprstr lval LT rval RT msg "").data.getLast? =
      some '\n' ∧
    ('\n' ∉ filename.data → '\n' ∉ exprstr.data →
      (__ioc_report_error line column filename exprstr lval LT rval RT msg "").data.count '\n'
        = 1) := by
  refine ⟨report_error_appends line column filename exprstr lval LT rval RT msg, ?_, ?_⟩
  · simp only [__ioc_report_error, fprintf_stderr, String.data_append]
    rw [List.nil_append, List.getLast?_append_of_ne_nil _ (List.cons_ne_nil _ _)]
    rfl
  · intro hf he
    have hd : ∀ d, d < 10 → digitChar d ≠ '\n' := by decide
    have hp : ∀ V T, (__ioc_print_val V T).data.count '\n' = 0 :=
      print_val_count_zero '\n' hd (by decide)
    have hn : ∀ n, (fmt_d n).data.count '\n' = 0 :=
      fun n => decimalInt_count_zero '\n' hd (by decide) _
    have k0 : "".data = [] := rfl
    have k1 : List.count '\n' ":".data = 0 := by decide
    have k2 : List.count '\n' ": runtime error: ".data = 0 := by decide
    have k3 : List.count '\n' " ".data = 0 := by decide
    have k4 : List.count '\n' "[ expr = '".data = 0 := by decide
    have k5 : List.count '\n' "', lval = ".data = 0 := by decide
    have k6 : List.count '\n' ", rval = ".data = 0 := by decide
    have k7 : List.count '\n' " ]\n".data = 1 := by decide
    simp only [__ioc_report_error, fprintf_stderr, String.data_append, List.count_append, hp, hn,
      k0, k1, k2, k3, k4, k5, k6, k7, List.nil_append, Nat.add_zero, Nat.zero_add, hmsg,
      List.count_eq_zero.2 hf, List.count_eq_zero.2 he]

theorem conversion_one_line (line column : Nat)
    (filename srcty canonsrcty dstty canondstty : String) (src S : Nat) :
    (∀ stderr,
      __ioc_report_conversion line column filename srcty canonsrcty dstty canondstty src S stderr
        = stderr ++
          __ioc_report_conversion line column filename srcty canonsrcty dstty canondstty src S
            "") ∧
    (__ioc_report_conversion line column filename srcty canonsrcty dstty canondstty src S
      "").data.getLast? = some '\n' ∧
    ('\n' ∉ filename.data → '\n' ∉ srcty.data → '\n' ∉ canonsrcty.data → '\n' ∉ dstty.data →
      '\n' ∉ canondstty.data →
      (__ioc_report_conversion line column filename srcty canonsrcty dstty canondstty src S
        "").data.count '\n' = 1) := by
  refine ⟨?_, ?_, ?_⟩
  · intro stderr
    simp only [__ioc_report_conversion, fprintf_stderr]
    congr 1
  · simp only [__ioc_report_conversion, fprintf_stderr, String.data_append]
    rw [List.nil_append, List.getLast?_append_of_ne_nil _ (List.cons_ne_nil _ _)]
    rfl
  · intro h1 h2 h3 h4 h5
    have hd : ∀ d, d < 10 → digitChar d ≠ '\n' := by decide
    have hn : ∀ n, (fmt_d n).data.count '\n' = 0 :=
      fun n => decimalInt_count_zero '\n' hd (by decide) _
    have hs : (if S ≠ 0 then fmt_lld src else fmt_llu src).data.count '\n' = 0 := by
      split
      · exact decimalInt_count_zero '\n' hd (by decide) _
      · exact decimal_count_zero '\n' hd _
    have k0 : "".data = [] := rfl
    have k1 : List.count '\n' ":".data = 0 := by decide
    have k2 : List.count '\n' ": runtime error: value lost in conversion of '".data = 0 := by
      decide
    have k3 : List.count '\n' "'".data = 0 := by decide
    have k4 : List.count '\n' " from '".data = 0 := by decide
    have k5 : List.count '\n' "' (".data = 0 := by decide
    have k6 : List.count '\n' ") to '".data = 0 := by decide
    have k7 : List.count '\n' ")\n".data = 1 := by decide
    simp only [__ioc_report_conversion, fprintf_stderr, String.data_append, List.count_append,
      hn, hs, k0, k1, k2, k3, k4, k5, k6, k7, List.nil_append, Nat.add_zero, Nat.zero_add,
      List.count_eq_zero.2 h1, List.count_eq_zero.2 h2, List.count_eq_zero.2 h3,
      List.count_eq_zero.2 h4, List.count_eq_zero.2 h5]

theorem decimalAux_length (fuel : Nat) :
    ∀ k n, n < 10 ^ (k + 1) → (decimalAux fuel n).length ≤ k + 1 := by
  induction fuel with
  | zero => intro k n _; simp [decimalAux]
  | succ fuel ih =>
    intro k n hn
    rw [decimalAux]
    split
    · simp
    · rename_i h
      cases k with
      | zero => omega
      | succ k =>
        have hdiv : n / 10 < 10 ^ (k + 1) := by
          rw [Nat.div_lt_iff_lt_mul (by decide)]
          rwa [pow_succ] at hn
        have := ih k (n / 10) hdiv
        simp only [List.length_append, List.length_singleton]
        omega

theorem decimal_length (k n : Nat) (h : n < 10 ^ (k + 1)) : (decimal n).length ≤ k + 1 :=
  decimalAux_length (n + 1) k n h

theorem fmt_llu_length (n : Nat) : (fmt_llu n).length ≤ 20 := by
  have hm : n % 2 ^ 64 < 2 ^ 64 := Nat.mod_lt _ (by positivity)
  exact decimal_length 19 _ (lt_trans hm (by norm_num))

theorem fmt_lld_length (n : Nat) : (fmt_lld n).length ≤ 20 := by
  have hm : n % 2 ^ 64 < 2 ^ 64 := Nat.mod_lt _ (by positivity)
  rw [fmt_lld, toInt64]
  generalize n % 2 ^ 64 = m at hm
  norm_num at hm
  split
  · rename_i h
    norm_num at h
    rw [decimalInt, if_neg (by omega)]
    exact decimal_length 19 _ (by norm_num; omega)
  · rename_i h
    norm_num at h
    rw [decimalInt, if_pos (by norm_num; omega), String.length_append]
    have := decimal_length 18 (Int.natAbs ((m : Int) - 2 ^ 64)) (by norm_num; omega)
    have h1 : "-".length = 1 := rfl
    omega

theorem fmt_u_width_length (T : Nat) : (fmt_u (1 <<< (T &&& 7))).length ≤ 3 := by
  rw [fmt_u_width, Nat.one_shiftLeft]
  have h : T &&& 7 ≤ 7 := Nat.and_le_right
  have h2 : 2 ^ (T &&& 7) ≤ 2 ^ 7 := Nat.pow_le_pow_right (by decide) h
  exact decimal_length 2 _ (by norm_num at h2 ⊢; omega)

theorem decimal_injective {a b : Nat} (h : decimal a = decimal b) : a = b := by
  have ha := parseDecimal_decimal a
  rw [h, parseDecimal_decimal] at ha
  exact (Option.some.inj ha).symm

theorem parseSignedDecimal_decimalInt (i : Int) :
    parseSignedDecimal (decimalInt i).data = some i := by
  rw [decimalInt]
  split
  · rw [parseSignedDecimal_minus]
    congr 1
    omega
  · rw [parseSignedDecimal_decimal]
    congr 1
    omega

theorem decimalInt_injective {i j : Int} (h : decimalInt i = decimalInt j) : i = j := by
  have hi := parseSignedDecimal_decimalInt i
  rw [h, parseSignedDecimal_decimalInt] at hi
  exact (Option.some.inj hi).symm

theorem toInt64_injective {a b : Nat} (ha : a < 2 ^ 64) (hb : b < 2 ^ 64)
    (h : toInt64 a = toInt64 b) : a = b := by
  rw [toInt64_of_lt ha, toInt64_of_lt hb] at h
  norm_num at ha hb h
  split at h <;> split at h <;> omega

theorem string_append_cancel_left {p a b : String} (h : p ++ a = p ++ b) : a = b := by
  have hd := congrArg String.data h
  rw [String.data_append, String.data_append] at hd
  exact String.ext (List.append_cancel_left hd)

theorem land_fifteen (T : Nat) : T &&& 15 = (T &&& 7) ||| (T &&& 8) :=
  Nat.and_or_distrib_left T 7 8

theorem label_injective (b1 b2 : Bool) (d1 d2 : String)
    (h : (if b1 = true then "(sint" else "(uint") ++ d1 ++ ")" =
      (if b2 = true then "(sint" else "(uint") ++ d2 ++ ")") : b1 = b2 ∧ d1 = d2 := by
  have hd := congrArg String.data h
  rw [String.data_append, String.data_append, String.data_append, String.data_append,
    List.append_assoc, List.append_assoc] at hd
  have hlen : (if b1 = true then "(sint" else "(uint").data.length =
      (if b2 = true then "(sint" else "(uint").data.length := by
    cases b1 <;> cases b2 <;> rfl
  obtain ⟨ha, hb⟩ := List.append_inj hd hlen
  refine ⟨?_, String.ext (List.append_cancel_right hb)⟩
  cases b1 <;> cases b2 <;> first | rfl | exact absurd ha (by decide)

theorem fmt_d_of_lt32 {n : Nat} (h : n < 2 ^ 32) :
    fmt_d n = if n < 2 ^ 31 then decimal n else "-" ++ decimal (2 ^ 32 - n) := by
  rw [fmt_d, toInt32, Nat.mod_eq_of_lt h, decimalInt]
  by_cases h31 : n < 2 ^ 31
  · rw [if_pos h31, if_pos h31, if_neg (by omega)]
    simp
  · rw [if_neg h31, if_neg h31, if_pos (by omega)]
    congr 2
    omega

theorem report_error_text (line column : Nat) (filename exprstr : String)
    (lval LT rval RT : Nat) (msg stderr : String) :
    __ioc_report_error line column filename exprstr lval LT rval RT msg stderr =
      stderr ++ (filename ++ ":" ++ fmt_d line ++ ":" ++ fmt_d column
        ++ ": runtime error: " ++ msg ++ " [ expr = '" ++ exprstr ++ "', lval = "
        ++ __ioc_print_val lval LT ++ ", rval = " ++ __ioc_print_val rval RT ++ " ]" ++ "\n") := by
  have e1 : " [ expr = '" = " " ++ "[ expr = '" := by decide
  have e2 : " ]\n" = " ]" ++ "\n" := by decide
  simp only [__ioc_report_error, fprintf_stderr]
  rw [e1, e2]
  simp only [String.append_assoc]

/-! ## The claims -/

/-- C1: for lines and columns below `2^31`, `__ioc_report_error` appends to the
error stream exactly the text
`filename:line:column: runtime error: message [ expr = 'exprtext', lval = L, rval = R ]`
followed by one newline, where `L` and `R` are the operands as formatted by
`__ioc_print_val` under their tags, and nothing else. -/
theorem report_error_line (filename exprstr msg : String) (lval LT rval RT line column : Nat)
    (stderr : String) (hline : line < 2 ^ 31) (hcolumn : column < 2 ^ 31) :
    __ioc_report_error line column filename exprstr lval LT rval RT msg stderr =
      stderr ++ (filename ++ ":" ++ decimal line ++ ":" ++ decimal column
        ++ ": runtime error: " ++ msg ++ " [ expr = '" ++ exprstr ++ "', lval = "
        ++ __ioc_print_val lval LT ++ ", rval = " ++ __ioc_print_val rval RT ++ " ]" ++ "\n") := by
  have e1 : " [ expr = '" = " " ++ "[ expr = '" := by decide
  have e2 : " ]\n" = " ]" ++ "\n" := by decide
  simp only [__ioc_report_error, fprintf_stderr, fmt_d_of_lt hline, fmt_d_of_lt hcolumn]
  rw [e1, e2]
  simp only [String.append_assoc]

/-- Witness of C1 at line 10, column 5 of `foo.c`. -/
theorem report_error_line_witness :
    10 < 2 ^ 31 ∧ 5 < 2 ^ 31 ∧
    __ioc_report_error 10 5 "foo.c" "x + y" 7 0x0D 1 0x05 "msg" "" =
      "foo.c:10:5: runtime error: msg [ expr = 'x + y', lval = (sint32) 7, rval = (uint32) 1 ]\n" :=
  ⟨by decide, by decide,
    (report_error_line "foo.c" "x + y" "msg" 7 0x0D 1 0x05 10 5 "" (by decide) (by decide)).trans
      (by decide)⟩

/-- C2: under a tag with bit 3 set, `__ioc_print_val` renders a 64-bit value as
`(sint<w>) <d>` with `w = 1 << (tag & 7)` and `d` the decimal numeral of the value
read as a two's-complement 64-bit integer; the numeral is a function of the value
alone, no masking or sign extension to the tag's width takes place. -/
theorem print_val_signed_format (v T : Nat) (hv : v < 2 ^ 64) (hT : T.testBit 3 = true) :
    __ioc_print_val v T = "(sint" ++ decimal (1 <<< (T &&& 7)) ++ ") "
      ++ (if v < 2 ^ 63 then decimal v else "-" ++ decimal (2 ^ 64 - v)) :=
  print_val_signed hv hT

/-- Witness of C2: `0xFF` under the signed tag of width 8 prints `255`, not `-1`. -/
theorem print_val_signed_format_witness :
    0xFF < 2 ^ 64 ∧ Nat.testBit 0x0B 3 = true ∧ __ioc_print_val 0xFF 0x0B = "(sint8) 255" :=
  ⟨by decide, by decide,
    (print_val_signed_format 0xFF 0x0B (by decide) (by decide)).trans (by decide)⟩

/-- C3: under a tag with bit 3 clear, `__ioc_print_val` renders a 64-bit value as
`(uint<w>) <d>` with `w = 1 << (tag & 7)` and `d` the decimal numeral of the value
as an unsigned integer: never a sign, never truncated to the tag's width. -/
theorem print_val_unsigned_format (v T : Nat) (hv : v < 2 ^ 64) (hT : T.testBit 3 = false) :
    __ioc_print_val v T = "(uint" ++ decimal (1 <<< (T &&& 7)) ++ ") " ++ decimal v :=
  print_val_unsigned hv hT

/-- Witness of C3: the largest 64-bit value under the unsigned tag of width 8. -/
theorem print_val_unsigned_format_witness :
    0xFFFFFFFFFFFFFFFF < 2 ^ 64 ∧ Nat.testBit 0x03 3 = false ∧
    __ioc_print_val 0xFFFFFFFFFFFFFFFF 0x03 = "(uint8) 18446744073709551615" :=
  ⟨by decide, by decide,
    (print_val_unsigned_format 0xFFFFFFFFFFFFFFFF 0x03 (by decide) (by decide)).trans (by decide)⟩

/-- C4: the call `__ioc_report_add_overflow(10, 5, "foo.c", "x + y", 0x7FFFFFFF, 1, 0x0D)`
appends to the error stream exactly the line
`foo.c:10:5: runtime error: signed addition overflow [ expr = 'x + y', lval = (sint32) 2147483647, rval = (sint32) 1 ]`
followed by a newline; `0x0D` is the signed tag of decoded width 32. -/
theorem add_overflow_example (stderr : String) :
    (Nat.testBit 0x0D 3 = true ∧ 1 <<< (0x0D &&& 7) = 32) ∧
    __ioc_report_add_overflow 10 5 "foo.c" "x + y" 0x7FFFFFFF 1 0x0D stderr =
      stderr ++ ("foo.c:10:5: runtime error: signed addition overflow [ expr = 'x + y', lval = (sint32) 2147483647, rval = (sint32) 1 ]"
        ++ "\n") := by
  refine ⟨by decide, ?_⟩
  have h : __ioc_report_add_overflow 10 5 "foo.c" "x + y" 0x7FFFFFFF 1 0x0D "" =
      "foo.c:10:5: runtime error: signed addition overflow [ expr = 'x + y', lval = (sint32) 2147483647, rval = (sint32) 1 ]"
        ++ "\n" := by
    decide
  rw [← h]
  simp [__ioc_report_add_overflow, __ioc_report_error, fprintf_stderr]

/-- C5 (the claim as stated fails): under the signed tag with width exponent 0 the
label is `(sint1)`, not `(sint8)`. -/
theorem print_val_label_not_scaled :
    Nat.testBit 0x08 3 = true ∧ 0x08 &&& 7 = 0 ∧
    label (__ioc_print_val 0 0x08) = "(sint1)" ∧ label (__ioc_print_val 0 0x08) ≠ "(sint8)" := by
  decide

/-- C5 (amended): for a tag whose width exponent `e = tag & 7` is 0, 1, 2 or 3 the
label printed by `__ioc_print_val` is literally `(sint1)`, `(sint2)`, `(sint4)`,
`(sint8)` respectively when the tag is signed, and `(uint1)` .. `(uint8)` when it is
unsigned: the printed width is `1 << e` itself, not scaled by 8. -/
theorem print_val_label (v T : Nat) (he : T &&& 7 ≤ 3) :
    label (__ioc_print_val v T) =
      (if T.testBit 3 = true then "(sint" else "(uint")
        ++ (if T &&& 7 = 0 then "1" else if T &&& 7 = 1 then "2"
            else if T &&& 7 = 2 then "4" else "8") ++ ")" := by
  rw [print_val_label_eq]
  generalize T &&& 7 = e at he
  interval_cases e <;> rfl

/-- Witness of C5 (amended): the signed tag with exponent 3 gives `(sint8)`. -/
theorem print_val_label_witness :
    0x0B &&& 7 ≤ 3 ∧ label (__ioc_print_val 0xFF 0x0B) = "(sint8)" :=
  ⟨by decide, (print_val_label 0xFF 0x0B (by decide)).trans (by decide)⟩

/-- C6: round trip. Under a tag with bit 3 set, dropping the `(sint<width>) ` prefix
from the output of `__ioc_print_val` and reading the rest as a signed decimal numeral
gives back the two's-complement 64-bit reading of the value. -/
theorem print_val_signed_roundtrip (v T : Nat) (hv : v < 2 ^ 64) (hT : T.testBit 3 = true) :
    (stripPrefix ("(sint" ++ decimal (1 <<< (T &&& 7)) ++ ") ").data
        (__ioc_print_val v T).data).bind parseSignedDecimal =
      some (if v < 2 ^ 63 then (v : Int) else (v : Int) - 2 ^ 64) := by
  rw [print_val_signed hv hT]
  generalize "(sint" ++ decimal (1 <<< (T &&& 7)) ++ ") " = pre
  rw [String.data_append, stripPrefix_append, Option.some_bind]
  by_cases h : v < 2 ^ 63
  · rw [if_pos h, if_pos h, parseSignedDecimal_decimal]
  · have e : -((2 ^ 64 - v : Nat) : Int) = (v : Int) - 2 ^ 64 := by
      rw [Nat.cast_sub hv.le]
      push_cast
      ring
    rw [if_neg h, if_neg h, parseSignedDecimal_minus, e]

/-- Witness of C6 at the most negative value, `0x8000000000000000`. -/
theorem print_val_signed_roundtrip_witness :
    0x8000000000000000 < 2 ^ 64 ∧ Nat.testBit 0x0E 3 = true ∧
    __ioc_print_val 0x8000000000000000 0x0E = "(sint64) -9223372036854775808" ∧
    (stripPrefix ("(sint" ++ decimal (1 <<< (0x0E &&& 7)) ++ ") ").data
        (__ioc_print_val 0x8000000000000000 0x0E).data).bind parseSignedDecimal =
      some (-9223372036854775808) :=
  ⟨by decide, by decide, by decide,
    (print_val_signed_roundtrip 0x8000000000000000 0x0E (by decide) (by decide)).trans
      (by decide)⟩

/-- C7: `__ioc_is_signed T` is nonzero exactly when bit 3 of `T` is set, so two tags
that agree on bit 3 get the same result whatever their bits 0-2 and 4-7. -/
theorem is_signed_iff_bit3 (T : Nat) :
    (__ioc_is_signed T ≠ 0 ↔ T.testBit 3 = true) ∧
    ∀ T2 : Nat, T2.testBit 3 = T.testBit 3 → __ioc_is_signed T2 = __ioc_is_signed T := by
  refine ⟨is_signed_ne_zero_iff T, ?_⟩
  intro T2 h
  rw [__ioc_is_signed, __ioc_is_signed, land_eight, land_eight, h]

/-- Witness of C7: `0x0D` and `0xF8` agree on bit 3 only. -/
theorem is_signed_iff_bit3_witness :
    Nat.testBit 0xF8 3 = Nat.testBit 0x0D 3 ∧ __ioc_is_signed 0xF8 = __ioc_is_signed 0x0D :=
  ⟨by decide, (is_signed_iff_bit3 0x0D).2 0xF8 (by decide)⟩

/-- C8: reserved bits are ignored. Two tags with the same low four bits decode to the
same width and signedness, make `__ioc_print_val` produce the same string for every
value, and make each of the eight tag-taking entry points emit the same line. -/
theorem reserved_bits_ignored (T1 T2 : Nat) (h : T1 &&& 0x0F = T2 &&& 0x0F) :
    (1 <<< (T1 &&& 7) = 1 <<< (T2 &&& 7) ∧ __ioc_is_signed T1 = __ioc_is_signed T2) ∧
    (∀ v, __ioc_print_val v T1 = __ioc_print_val v T2) ∧
    ∀ (line column : Nat) (filename exprstr : String) (lval rval : Nat) (stderr : String),
      __ioc_report_add_overflow line column filename exprstr lval rval T1 stderr =
        __ioc_report_add_overflow line column filename exprstr lval rval T2 stderr ∧
      __ioc_report_sub_overflow line column filename exprstr lval rval T1 stderr =
        __ioc_report_sub_overflow line column filename exprstr lval rval T2 stderr ∧
      __ioc_report_mul_overflow line column filename exprstr lval rval T1 stderr =
        __ioc_report_mul_overflow line column filename exprstr lval rval T2 stderr ∧
      __ioc_report_div_error line column filename exprstr lval rval T1 stderr =
        __ioc_report_div_error line column filename exprstr lval rval T2 stderr ∧
      __ioc_report_rem_error line column filename exprstr lval rval T1 stderr =
        __ioc_report_rem_error line column filename exprstr lval rval T2 stderr ∧
      __ioc_report_shl_bitwidth line column filename exprstr lval rval T1 stderr =
        __ioc_report_shl_bitwidth line column filename exprstr lval rval T2 stderr ∧
      __ioc_report_shr_bitwidth line column filename exprstr lval rval T1 stderr =
        __ioc_report_shr_bitwidth line column filename exprstr lval rval T2 stderr ∧
      __ioc_report_shl_strict line column filename exprstr lval rval T1 stderr =
        __ioc_report_shl_strict line column filename exprstr lval rval T2 stderr := by
  refine ⟨⟨?_, is_signed_congr h⟩, print_val_congr h, ?_⟩
  · rw [land_seven T1, land_seven T2, h]
  · intro line column filename exprstr lval rval stderr
    simp only [__ioc_report_add_overflow, __ioc_report_sub_overflow, __ioc_report_mul_overflow,
      __ioc_report_div_error, __ioc_report_rem_error, __ioc_report_shl_bitwidth,
      __ioc_report_shr_bitwidth, __ioc_report_shl_strict, is_signed_congr h,
      report_error_congr h, and_self]

/-- Witness of C8: `0x0D` and `0xFD` differ in the reserved bits only. -/
theorem reserved_bits_ignored_witness :
    0x0D &&& 0x0F = 0xFD &&& 0x0F ∧
    __ioc_print_val 0x7FFFFFFF 0xFD = "(sint32) 2147483647" ∧
    ∀ v, __ioc_print_val v 0x0D = __ioc_print_val v 0xFD :=
  ⟨by decide, by decide, (reserved_bits_ignored 0x0D 0xFD (by decide)).2.1⟩

/-- C9: the addition, subtraction and multiplication entry points append to the
error stream the shared diagnostic line, `filename:line:column: runtime error: `, the
message, ` [ expr = 'exprtext', lval = L, rval = R ]` and a newline, with both operands
formatted by `__ioc_print_val` under the one tag `T` and line and column rendered by
`%d`; the message is `signed <op> overflow` when bit 3 of `T` is set and
`unsigned <op> overflow` otherwise, whatever the operand values. -/
theorem arith_overflow_message (line column : Nat) (filename exprstr : String)
    (lval rval T : Nat) (stderr : String) :
    __ioc_report_add_overflow line column filename exprstr lval rval T stderr =
      stderr ++ (filename ++ ":" ++ fmt_d line ++ ":" ++ fmt_d column ++ ": runtime error: "
        ++ (if T.testBit 3 = true then "signed addition overflow"
            else "unsigned addition overflow")
        ++ " [ expr = '" ++ exprstr ++ "', lval = " ++ __ioc_print_val lval T
        ++ ", rval = " ++ __ioc_print_val rval T ++ " ]" ++ "\n") ∧
    __ioc_report_sub_overflow line column filename exprstr lval rval T stderr =
      stderr ++ (filename ++ ":" ++ fmt_d line ++ ":" ++ fmt_d column ++ ": runtime error: "
        ++ (if T.testBit 3 = true then "signed subtraction overflow"
            else "unsigned subtraction overflow")
        ++ " [ expr = '" ++ exprstr ++ "', lval = " ++ __ioc_print_val lval T
        ++ ", rval = " ++ __ioc_print_val rval T ++ " ]" ++ "\n") ∧
    __ioc_report_mul_overflow line column filename exprstr lval rval T stderr =
      stderr ++ (filename ++ ":" ++ fmt_d line ++ ":" ++ fmt_d column ++ ": runtime error: "
        ++ (if T.testBit 3 = true then "signed multiplication overflow"
            else "unsigned multiplication overflow")
        ++ " [ expr = '" ++ exprstr ++ "', lval = " ++ __ioc_print_val lval T
        ++ ", rval = " ++ __ioc_print_val rval T ++ " ]" ++ "\n") := by
  simp only [__ioc_report_add_overflow, __ioc_report_sub_overflow, __ioc_report_mul_overflow,
    is_signed_ne_zero_iff, report_error_text, and_self]

/-- C10: `__ioc_report_div_error` appends to the error stream the shared diagnostic
line whose message is `division by zero is undefined` when `rval = 0` and
`division overflow (INT_MIN / -1)` for every other `rval`; neither `lval` nor the
signedness of the tag takes part in the choice. -/
theorem div_error_message (line column : Nat) (filename exprstr : String)
    (lval rval T : Nat) (stderr : String) :
    __ioc_report_div_error line column filename exprstr lval rval T stderr =
      stderr ++ (filename ++ ":" ++ fmt_d line ++ ":" ++ fmt_d column ++ ": runtime error: "
        ++ (if rval = 0 then "division by zero is undefined"
            else "division overflow (INT_MIN / -1)")
        ++ " [ expr = '" ++ exprstr ++ "', lval = " ++ __ioc_print_val lval T
        ++ ", rval = " ++ __ioc_print_val rval T ++ " ]" ++ "\n") := by
  rw [__ioc_report_div_error]
  split <;> exact report_error_text _ _ _ _ _ _ _ _ _ _

/-- C12: for a 64-bit `rval`, `__ioc_report_shl_bitwidth` appends to the error stream
the shared diagnostic line whose message is `left shift by negative amount` exactly
when bit 3 of the tag is set and `rval >= 2^63` (negative as a signed 64-bit integer),
and `left shift by amount >= bitwidth` in every other case, an unsigned tag with
`rval >= 2^63` included; `__ioc_report_shr_bitwidth` does the same with the
`right shift` messages. -/
theorem shift_bitwidth_message (line column : Nat) (filename exprstr : String)
    (lval rval T : Nat) (stderr : String) (hr : rval < 2 ^ 64) :
    __ioc_report_shl_bitwidth line column filename exprstr lval rval T stderr =
      stderr ++ (filename ++ ":" ++ fmt_d line ++ ":" ++ fmt_d column ++ ": runtime error: "
        ++ (if T.testBit 3 = true ∧ 2 ^ 63 ≤ rval then "left shift by negative amount"
            else "left shift by amount >= bitwidth")
        ++ " [ expr = '" ++ exprstr ++ "', lval = " ++ __ioc_print_val lval T
        ++ ", rval = " ++ __ioc_print_val rval T ++ " ]" ++ "\n") ∧
    __ioc_report_shr_bitwidth line column filename exprstr lval rval T stderr =
      stderr ++ (filename ++ ":" ++ fmt_d line ++ ":" ++ fmt_d column ++ ": runtime error: "
        ++ (if T.testBit 3 = true ∧ 2 ^ 63 ≤ rval then "right shift by negative amount"
            else "right shift by amount >= bitwidth")
        ++ " [ expr = '" ++ exprstr ++ "', lval = " ++ __ioc_print_val lval T
        ++ ", rval = " ++ __ioc_print_val rval T ++ " ]" ++ "\n") := by
  have hneg : toInt64 rval < 0 ↔ 2 ^ 63 ≤ rval := by
    rw [toInt64_of_lt hr]
    have hr2 : (rval : Int) < 2 ^ 64 := by exact_mod_cast hr
    constructor
    · intro h
      by_contra hlt
      rw [if_pos (Nat.lt_of_not_le hlt)] at h
      exact absurd h (by omega)
    · intro h
      rw [if_neg (Nat.not_lt.2 h)]
      linarith
  rw [__ioc_report_shl_bitwidth, __ioc_report_shr_bitwidth]
  simp only [is_signed_ne_zero_iff, hneg]
  constructor <;> split <;> exact report_error_text _ _ _ _ _ _ _ _ _ _

/-- Witness of C12: a signed tag with `rval = 2^64 - 1` reports a negative amount, an
unsigned tag with the same `rval` an amount beyond the bit width. -/
theorem shift_bitwidth_message_witness :
    0xFFFFFFFFFFFFFFFF < 2 ^ 64 ∧
    __ioc_report_shl_bitwidth 3 7 "a.c" "x << y" 1 0xFFFFFFFFFFFFFFFF 0x0D "" =
      "a.c:3:7: runtime error: left shift by negative amount [ expr = 'x << y', lval = (sint32) 1, rval = (sint32) -1 ]\n" ∧
    __ioc_report_shr_bitwidth 3 7 "a.c" "x >> y" 1 0xFFFFFFFFFFFFFFFF 0x05 "" =
      "a.c:3:7: runtime error: right shift by amount >= bitwidth [ expr = 'x >> y', lval = (uint32) 1, rval = (uint32) 18446744073709551615 ]\n" :=
  ⟨by decide,
    (shift_bitwidth_message 3 7 "a.c" "x << y" 1 0xFFFFFFFFFFFFFFFF 0x0D "" (by decide)).1.trans
      (by decide),
    (shift_bitwidth_message 3 7 "a.c" "x >> y" 1 0xFFFFFFFFFFFFFFFF 0x05 "" (by decide)).2.trans
      (by decide)⟩

/-- C13: `__ioc_report_shl_strict` appends to the error stream the shared diagnostic
line with the one fixed message `left shift into or beyond sign bit`, for signed and
unsigned tags and for every operand value. -/
theorem shl_strict_message (line column : Nat) (filename exprstr : String)
    (lval rval T : Nat) (stderr : String) :
    __ioc_report_shl_strict line column filename exprstr lval rval T stderr =
      stderr ++ (filename ++ ":" ++ fmt_d line ++ ":" ++ fmt_d column ++ ": runtime error: "
        ++ "left shift into or beyond sign bit"
        ++ " [ expr = '" ++ exprstr ++ "', lval = " ++ __ioc_print_val lval T
        ++ ", rval = " ++ __ioc_print_val rval T ++ " ]" ++ "\n") := by
  rw [__ioc_report_shl_strict]
  exact report_error_text _ _ _ _ _ _ _ _ _ _

/-- C14: for lines and columns below `2^31` and a 64-bit `src`,
`__ioc_report_conversion` appends exactly
`filename:line:column: runtime error: value lost in conversion of 'd' from 'srcty' (canonsrcty) to 'dstty' (canondstty)`
and a newline, where `d` is the bare signed 64-bit decimal of `src` when `S` is
nonzero and the bare unsigned decimal when `S = 0`, without any type label. -/
theorem conversion_line (line column : Nat) (filename srcty canonsrcty dstty canondstty : String)
    (src S : Nat) (stderr : String) (hline : line < 2 ^ 31) (hcolumn : column < 2 ^ 31)
    (hsrc : src < 2 ^ 64) :
    __ioc_report_conversion line column filename srcty canonsrcty dstty canondstty src S stderr =
      stderr ++ (filename ++ ":" ++ decimal line ++ ":" ++ decimal column
        ++ ": runtime error: value lost in conversion of '"
        ++ (if S = 0 then decimal src
            else if src < 2 ^ 63 then decimal src else "-" ++ decimal (2 ^ 64 - src))
        ++ "' from '" ++ srcty ++ "' (" ++ canonsrcty ++ ") to '" ++ dstty ++ "' ("
        ++ canondstty ++ ")" ++ "\n") := by
  have e1 : "' from '" = "'" ++ " from '" := by decide
  have e2 : ")\n" = ")" ++ "\n" := by decide
  have hs : (if S ≠ 0 then fmt_lld src else fmt_llu src) =
      (if S = 0 then decimal src
       else if src < 2 ^ 63 then decimal src else "-" ++ decimal (2 ^ 64 - src)) := by
    by_cases h : S = 0
    · rw [if_neg (not_not.2 h), if_pos h, fmt_llu_of_lt hsrc]
    · rw [if_pos h, if_neg h, fmt_lld_of_lt hsrc]
  simp only [__ioc_report_conversion, fprintf_stderr, fmt_d_of_lt hline, fmt_d_of_lt hcolumn, hs]
  rw [e1, e2]
  simp only [String.append_assoc]

/-- Witness of C14: the flag byte 2 (nonzero, not 1) selects the signed decimal. -/
theorem conversion_line_witness :
    12 < 2 ^ 31 ∧ 3 < 2 ^ 31 ∧ 0xFFFFFFFFFFFFFFFF < 2 ^ 64 ∧
    __ioc_report_conversion 12 3 "b.c" "long" "long" "char" "char" 0xFFFFFFFFFFFFFFFF 2 "" =
      "b.c:12:3: runtime error: value lost in conversion of '-1' from 'long' (long) to 'char' (char)\n" :=
  ⟨by decide, by decide, by decide,
    (conversion_line 12 3 "b.c" "long" "long" "char" "char" 0xFFFFFFFFFFFFFFFF 2 ""
      (by decide) (by decide) (by decide)).trans (by decide)⟩

/-- C15: every call writes one line. For each of the nine entry points and every
argument tuple the call appends its text to the error stream and that text ends with
a newline; when the strings supplied by the caller hold no newline, the text holds
exactly one newline, which is therefore its last character. -/
theorem one_line_per_call :
    (∀ f ∈ tagEntryPoints, ∀ (line column : Nat) (filename exprstr : String) (lval rval T : Nat),
      (∀ stderr, f line column filename exprstr lval rval T stderr =
        stderr ++ f line column filename exprstr lval rval T "") ∧
      (f line column filename exprstr lval rval T "").data.getLast? = some '\n' ∧
      ('\n' ∉ filename.data → '\n' ∉ exprstr.data →
        (f line column filename exprstr lval rval T "").data.count '\n' = 1)) ∧
    (∀ (line column : Nat) (filename srcty canonsrcty dstty canondstty : String) (src S : Nat),
      (∀ stderr,
        __ioc_report_conversion line column filename srcty canonsrcty dstty canondstty src S
            stderr =
          stderr ++
            __ioc_report_conversion line column filename srcty canonsrcty dstty canondstty src S
              "") ∧
      (__ioc_report_conversion line column filename srcty canonsrcty dstty canondstty src S
        "").data.getLast? = some '\n' ∧
      ('\n' ∉ filename.data → '\n' ∉ srcty.data → '\n' ∉ canonsrcty.data →
        '\n' ∉ dstty.data → '\n' ∉ canondstty.data →
        (__ioc_report_conversion line column filename srcty canonsrcty dstty canondstty src S
          "").data.count '\n' = 1)) := by
  refine ⟨?_, conversion_one_line⟩
  intro f hf line column filename exprstr lval rval T
  simp only [tagEntryPoints, List.mem_cons, List.mem_singleton, List.not_mem_nil, or_false]
    at hf
  rcases hf with rfl | rfl | rfl | rfl | rfl | rfl | rfl | rfl
  · simp only [__ioc_report_add_overflow]
    exact report_error_one_line _ _ _ _ _ _ _ _ _ (by split <;> decide)
  · simp only [__ioc_report_sub_overflow]
    exact report_error_one_line _ _ _ _ _ _ _ _ _ (by split <;> decide)
  · simp only [__ioc_report_mul_overflow]
    exact report_error_one_line _ _ _ _ _ _ _ _ _ (by split <;> decide)
  · by_cases h : rval = 0
    · simp only [__ioc_report_div_error, if_pos h]
      exact report_error_one_line _ _ _ _ _ _ _ _ _ (by decide)
    · simp only [__ioc_report_div_error, if_neg h]
      exact report_error_one_line _ _ _ _ _ _ _ _ _ (by decide)
  · by_cases h : rval = 0
    · simp only [__ioc_report_rem_error, if_pos h]
      exact report_error_one_line _ _ _ _ _ _ _ _ _ (by decide)
    · simp only [__ioc_report_rem_error, if_neg h]
      exact report_error_one_line _ _ _ _ _ _ _ _ _ (by decide)
  · by_cases h : __ioc_is_signed T ≠ 0 ∧ toInt64 rval < 0
    · simp only [__ioc_report_shl_bitwidth, if_pos h]
      exact report_error_one_line _ _ _ _ _ _ _ _ _ (by decide)
    · simp only [__ioc_report_shl_bitwidth, if_neg h]
      exact report_error_one_line _ _ _ _ _ _ _ _ _ (by decide)
  · by_cases h : __ioc_is_signed T ≠ 0 ∧ toInt64 rval < 0
    · simp only [__ioc_report_shr_bitwidth, if_pos h]
      exact report_error_one_line _ _ _ _ _ _ _ _ _ (by decide)
    · simp only [__ioc_report_shr_bitwidth, if_neg h]
      exact report_error_one_line _ _ _ _ _ _ _ _ _ (by decide)
  · simp only [__ioc_report_shl_strict]
    exact report_error_one_line _ _ _ _ _ _ _ _ _ (by decide)

/-- Witness of C15: a remainder report whose strings hold no newline is one line. -/
theorem one_line_per_call_witness :
    '\n' ∉ "a.c".data ∧ '\n' ∉ "x % y".data ∧
    (__ioc_report_rem_error 1 2 "a.c" "x % y" 1 0 0x0D "").data.getLast? = some '\n' ∧
    (__ioc_report_rem_error 1 2 "a.c" "x % y" 1 0 0x0D "").data.count '\n' = 1 :=
  ⟨by decide, by decide,
    (one_line_per_call.1 __ioc_report_rem_error (by simp [tagEntryPoints])
      1 2 "a.c" "x % y" 1 0 0x0D).2.1,
    (one_line_per_call.1 __ioc_report_rem_error (by simp [tagEntryPoints])
      1 2 "a.c" "x % y" 1 0 0x0D).2.2 (by decide) (by decide)⟩

/-- C16: the value formatter stays within its buffer. For every value and every tag,
width exponents 4..7 included, the string produced by `__ioc_print_val` has at most 30
characters, so with its terminator it fits in 40 characters and in the 100-byte
buffers `lstr` and `rstr`; the bare decimal that `__ioc_report_conversion` stores in
`srcstr` has at most 20 characters. -/
theorem print_val_fits (V T src S : Nat) :
    (__ioc_print_val V T).length ≤ 30 ∧
    (__ioc_print_val V T).length + 1 ≤ 40 ∧
    (__ioc_print_val V T).length + 1 ≤ 100 ∧
    (if S ≠ 0 then fmt_lld src else fmt_llu src).length ≤ 20 := by
  have hw := fmt_u_width_length T
  have h1 : "(sint".length = 5 := rfl
  have h2 : "(uint".length = 5 := rfl
  have h3 : ") ".length = 2 := rfl
  have hp : (__ioc_print_val V T).length ≤ 30 := by
    simp only [__ioc_print_val]
    split
    · have := fmt_lld_length V
      simp only [String.length_append, h1, h3]
      omega
    · have := fmt_llu_length V
      simp only [String.length_append, h2, h3]
      omega
  refine ⟨hp, by omega, by omega, ?_⟩
  split
  · exact fmt_lld_length src
  · exact fmt_llu_length src

/-- C18: the typed value rendering is unambiguous. Two 64-bit values rendered by
`__ioc_print_val` under two tags give the same string only if the values are equal and
the tags agree on their low four bits, that is on signedness and decoded width. -/
theorem print_val_injective (v1 T1 v2 T2 : Nat) (h1 : v1 < 2 ^ 64) (h2 : v2 < 2 ^ 64)
    (h : __ioc_print_val v1 T1 = __ioc_print_val v2 T2) :
    v1 = v2 ∧ T1 &&& 0x0F = T2 &&& 0x0F := by
  have hl := congrArg label h
  rw [print_val_label_eq, print_val_label_eq] at hl
  obtain ⟨hb, hw⟩ := label_injective (T1.testBit 3) (T2.testBit 3) _ _ hl
  have hw2 := decimal_injective hw
  rw [Nat.one_shiftLeft, Nat.one_shiftLeft] at hw2
  have he : T1 &&& 7 = T2 &&& 7 := Nat.pow_right_injective (le_refl 2) hw2
  have h15 : T1 &&& 15 = T2 &&& 15 := by
    rw [land_fifteen T1, land_fifteen T2, he, land_eight T1, land_eight T2, hb]
  refine ⟨?_, h15⟩
  rw [← print_val_congr h15 v2] at h
  simp only [__ioc_print_val] at h
  by_cases hs : __ioc_is_signed T1 ≠ 0
  · rw [if_pos hs, if_pos hs] at h
    exact toInt64_injective h1 h2 (decimalInt_injective (string_append_cancel_left h))
  · rw [if_neg hs, if_neg hs] at h
    have hu := string_append_cancel_left h
    rw [fmt_llu_of_lt h1, fmt_llu_of_lt h2] at hu
    exact decimal_injective hu

/-- Witness of C18: the tags `0x0D` and `0xFD` render 5 alike and share their low
four bits. -/
theorem print_val_injective_witness :
    5 < 2 ^ 64 ∧ __ioc_print_val 5 0x0D = __ioc_print_val 5 0xFD ∧
    (5 = 5 ∧ 0x0D &&& 0x0F = 0xFD &&& 0x0F) :=
  ⟨by decide, by decide,
    print_val_injective 5 0x0D 5 0xFD (by decide) (by decide) (by decide)⟩

/-- C19: the 32-bit line and column are rendered by `%d`, as signed 32-bit numbers, in
`__ioc_report_error` and in `__ioc_report_conversion`: a value below `2^31` is printed
as itself, a value `n >= 2^31` as the negative number `n - 2^32`. -/
theorem line_column_signed (line column : Nat) (filename exprstr msg : String)
    (lval LT rval RT : Nat) (srcty canonsrcty dstty canondstty : String) (src S : Nat)
    (stderr : String) (hline : line < 2 ^ 32) (hcolumn : column < 2 ^ 32) :
    __ioc_report_error line column filename exprstr lval LT rval RT msg stderr =
      stderr ++ (filename
        ++ ":" ++ (if line < 2 ^ 31 then decimal line else "-" ++ decimal (2 ^ 32 - line))
        ++ ":" ++ (if column < 2 ^ 31 then decimal column else "-" ++ decimal (2 ^ 32 - column))
        ++ ": runtime error: " ++ msg ++ " [ expr = '" ++ exprstr ++ "', lval = "
        ++ __ioc_print_val lval LT ++ ", rval = " ++ __ioc_print_val rval RT ++ " ]" ++ "\n") ∧
    __ioc_report_conversion line column filename srcty canonsrcty dstty canondstty src S stderr =
      stderr ++ (filename
        ++ ":" ++ (if line < 2 ^ 31 then decimal line else "-" ++ decimal (2 ^ 32 - line))
        ++ ":" ++ (if column < 2 ^ 31 then decimal column else "-" ++ decimal (2 ^ 32 - column))
        ++ ": runtime error: value lost in conversion of '"
        ++ (if S ≠ 0 then fmt_lld src else fmt_llu src)
        ++ "' from '" ++ srcty ++ "' (" ++ canonsrcty ++ ") to '" ++ dstty ++ "' ("
        ++ canondstty ++ ")" ++ "\n") := by
  have e1 : " [ expr = '" = " " ++ "[ expr = '" := by decide
  have e2 : " ]\n" = " ]" ++ "\n" := by decide
  have e3 : "' from '" = "'" ++ " from '" := by decide
  have e4 : ")\n" = ")" ++ "\n" := by decide
  constructor
  · simp only [__ioc_report_error, fprintf_stderr, fmt_d_of_lt32 hline, fmt_d_of_lt32 hcolumn]
    rw [e1, e2]
    simp only [String.append_assoc]
  · simp only [__ioc_report_conversion, fprintf_stderr, fmt_d_of_lt32 hline,
      fmt_d_of_lt32 hcolumn]
    rw [e3, e4]
    simp only [String.append_assoc]

/-- Witness of C19: line `2^32 - 1` is printed as `-1`, column `2^31` as `-2147483648`. -/
theorem line_column_signed_witness :
    4294967295 < 2 ^ 32 ∧ 2147483648 < 2 ^ 32 ∧
    __ioc_report_error 4294967295 2147483648 "f.c" "x" 1 0x0D 2 0x0D "m" "" =
      "f.c:-1:-2147483648: runtime error: m [ expr = 'x', lval = (sint32) 1, rval = (sint32) 2 ]\n" :=
  ⟨by decide, by decide,
    (line_column_signed 4294967295 2147483648 "f.c" "x" "m" 1 0x0D 2 0x0D "" "" "" "" 0 0 ""
      (by decide) (by decide)).1.trans (by decide)⟩

end IOC
